import Mathlib

/-!
Verification of the PathQuest candidate detection, scoring, and selection
engine (`snap_to_highest.py`, `ml/predict_summit.py`, `ml/extract_features.py`).

Modelling conventions used throughout this development:

* Elevation windows are modelled by `Grid`: a rectangular array of rational
  elevations together with a validity mask, mirroring the masked numpy
  arrays the Python code reads from the raster source.  Reading the window
  itself (rasterio I/O, CRS metadata) is an external collaborator and is
  not re-implemented; a `Grid` is the already-read window.
* Floating point numbers are modelled by `ℚ`.  The transcendental
  great-circle distance `haversine_m` and `cos(lat)` are opaque numeric
  inputs to the code under verification, so they appear as explicit
  function/value parameters (`d`, `cosLat`); the only property of
  `haversine_m` any theorem relies on is symmetry, which is stated as an
  explicit hypothesis where needed.
* Python `int(x)` truncation toward zero is `pyTrunc`; Python `round(x, 3)`
  (round half to even) is `pyRound3`.
-/

/-- Elevation window: a `rows × cols` grid of elevations with a validity
mask, as produced by `ds.read(1, window=..., masked=True)`. -/
structure Grid where
  rows : ℕ
  cols : ℕ
  elev : ℕ → ℕ → ℚ
  valid : ℕ → ℕ → Bool

/-- Python `int(x)` for a rational: truncation toward zero. -/
def pyTrunc (q : ℚ) : ℤ :=
  if 0 ≤ q then ⌊q⌋ else ⌈q⌉

/-- Python `round(x, 3)`: round half to even at the third decimal. -/
def pyRound3 (q : ℚ) : ℚ :=
  let x : ℚ := q * 1000
  let f : ℤ := ⌊x⌋
  let r : ℚ := x - f
  let n : ℤ :=
    if r < 1/2 then f
    else if 1/2 < r then f + 1
    else if Even f then f else f + 1
  (n : ℚ) / 1000

/-- Position `(r, c)` lies inside the grid (signed coordinates). -/
def Grid.inBounds (g : Grid) (r c : ℤ) : Prop :=
  0 ≤ r ∧ r < g.rows ∧ 0 ≤ c ∧ c < g.cols

instance (g : Grid) (r c : ℤ) : Decidable (g.inBounds r c) := by
  unfold Grid.inBounds; infer_instance

/-- Position is inside the grid and its validity-mask bit is set. -/
def Grid.validAt (g : Grid) (r c : ℤ) : Prop :=
  g.inBounds r c ∧ g.valid r.toNat c.toNat = true

instance (g : Grid) (r c : ℤ) : Decidable (g.validAt r c) := by
  unfold Grid.validAt; infer_instance

/-- The eight compass offsets, in the order of `snap_to_highest.py`
(`compute_radial_dominance`): N, NE, E, SE, S, SW, W, NW. -/
def radialDirections : List (ℤ × ℤ) :=
  [(-1, 0), (-1, 1), (0, 1), (1, 1), (1, 0), (1, -1), (0, -1), (-1, -1)]

/-- Elevations of the in-bounds, valid directional samples taken at
`sampleDist` pixels from `(r, c)`, one per direction that survives the
bounds and mask checks of `compute_radial_dominance`. -/
def radialSamples (g : Grid) (r c : ℕ) (sampleDist : ℕ) : List ℚ :=
  radialDirections.filterMap fun dir =>
    let sr : ℤ := (r : ℤ) + dir.1 * sampleDist
    let sc : ℤ := (c : ℤ) + dir.2 * sampleDist
    if g.validAt sr sc then some (g.elev sr.toNat sc.toNat) else none

/-- Embedding of `compute_radial_dominance` (snap_to_highest.py lines
66-113): fraction of the valid directional samples strictly lower than the
candidate; `0.5` when no direction yields a valid sample. -/
def compute_radial_dominance (g : Grid) (r c : ℕ) (sampleDist : ℕ) : ℚ :=
  let center := g.elev r c
  let samples := radialSamples g r c sampleDist
  if samples.length = 0 then 1/2
  else (samples.countP (fun e => decide (e < center)) : ℚ) / samples.length

/-- Row-major list of positions of the window
`[rMin, rMax) × [cMin, cMax)`, matching numpy slice iteration order. -/
def windowPositions (rMin rMax cMin cMax : ℕ) : List (ℕ × ℕ) :=
  ((List.range (rMax - rMin)).map (· + rMin)).flatMap fun r =>
    ((List.range (cMax - cMin)).map (· + cMin)).map fun c => (r, c)

/-- Valid cells of the square neighborhood of radius `radius` around
`(r, c)`, clipped to the grid, as positions (the `neighborhood_valid`
selection of `compute_neighborhood_dominance`). -/
def neighborhoodCells (g : Grid) (r c radius : ℕ) : List (ℕ × ℕ) :=
  (windowPositions (r - radius) (min g.rows (r + radius + 1))
      (c - radius) (min g.cols (c + radius + 1))).filter
    fun p => g.valid p.1 p.2

/-- Embedding of `compute_neighborhood_dominance` (snap_to_highest.py lines
116-154): share of valid neighborhood cells strictly lower than the
candidate, denominator excluding the candidate cell itself; `0.5` when at
most one valid cell exists. -/
def compute_neighborhood_dominance (g : Grid) (r c radius : ℕ) : ℚ :=
  let center := g.elev r c
  let cells := neighborhoodCells g r c radius
  if cells.length ≤ 1 then 1/2
  else
    let lower := cells.countP fun p => decide (g.elev p.1 p.2 < center)
    let total := cells.length - 1
    if total = 0 then 1/2 else (lower : ℚ) / total

/-- Embedding of `compute_summit_confidence` (snap_to_highest.py lines
157-181): `(combined, radial, neighborhood)` with
`combined = 0.6 · radial + 0.4 · neighborhood`. -/
def compute_summit_confidence (g : Grid) (r c radialDist neighRadius : ℕ) :
    ℚ × ℚ × ℚ :=
  let radial := compute_radial_dominance g r c radialDist
  let neigh := compute_neighborhood_dominance g r c neighRadius
  (3/5 * radial + 2/5 * neigh, radial, neigh)

lemma mem_windowPositions {p : ℕ × ℕ} {a b c d : ℕ} :
    p ∈ windowPositions a b c d ↔ a ≤ p.1 ∧ p.1 < b ∧ c ≤ p.2 ∧ p.2 < d := by
  obtain ⟨x, y⟩ := p
  simp only [windowPositions, List.mem_flatMap, List.mem_map, List.mem_range,
    Prod.mk.injEq]
  constructor
  · rintro ⟨r, ⟨i, hi, rfl⟩, j, ⟨k, hk, rfl⟩, h1, h2⟩
    omega
  · rintro ⟨h1, h2, h3, h4⟩
    exact ⟨x, ⟨x - a, by omega, by omega⟩, y, ⟨y - c, by omega, by omega⟩, by omega, by omega⟩

lemma countP_erase_of_not {α : Type} [BEq α] [LawfulBEq α] (p : α → Bool) (a : α)
    (l : List α) (hpa : p a = false) : (l.erase a).countP p = l.countP p := by
  induction l with
  | nil => simp
  | cons b t ih =>
    rw [List.erase_cons]
    by_cases hba : (b == a) = true
    · have : b = a := eq_of_beq hba
      subst this
      simp [hba, List.countP_cons, hpa]
    · simp only [hba, if_false]
      simp [List.countP_cons, ih]

lemma compute_radial_dominance_bounds (g : Grid) (r c sd : ℕ) :
    0 ≤ compute_radial_dominance g r c sd ∧ compute_radial_dominance g r c sd ≤ 1 := by
  unfold compute_radial_dominance
  set samples := radialSamples g r c sd with hs
  by_cases h : samples.length = 0
  · simp [h]; norm_num
  · simp only [h, if_false]
    have hle := List.countP_le_length (fun e => decide (e < g.elev r c)) (l := samples)
    have hpos : 0 < samples.length := Nat.pos_of_ne_zero h
    constructor
    · positivity
    · rw [div_le_one (by exact_mod_cast hpos)]; exact_mod_cast hle

lemma center_mem_neighborhoodCells (g : Grid) (r c radius : ℕ)
    (hr : r < g.rows) (hc : c < g.cols) (hv : g.valid r c = true) :
    (r, c) ∈ neighborhoodCells g r c radius := by
  unfold neighborhoodCells
  rw [List.mem_filter]
  refine ⟨mem_windowPositions.2 ?_, hv⟩
  refine ⟨Nat.sub_le _ _, ?_, Nat.sub_le _ _, ?_⟩ <;> omega

lemma compute_neighborhood_dominance_bounds (g : Grid) (r c radius : ℕ)
    (hr : r < g.rows) (hc : c < g.cols) (hv : g.valid r c = true) :
    0 ≤ compute_neighborhood_dominance g r c radius ∧
      compute_neighborhood_dominance g r c radius ≤ 1 := by
  unfold compute_neighborhood_dominance
  set center := g.elev r c with hcen
  set cells := neighborhoodCells g r c radius with hcells
  by_cases h1 : cells.length ≤ 1
  · simp [h1]; norm_num
  · simp only [h1, if_false]
    have hmem : (r, c) ∈ cells := center_mem_neighborhoodCells g r c radius hr hc hv
    have hpa : (fun p : ℕ × ℕ => decide (g.elev p.1 p.2 < center)) (r, c) = false := by
      simp [hcen]
    have hcount : cells.countP (fun p => decide (g.elev p.1 p.2 < center))
        = (cells.erase (r, c)).countP (fun p => decide (g.elev p.1 p.2 < center)) :=
      (countP_erase_of_not (fun p : ℕ × ℕ => decide (g.elev p.1 p.2 < center))
        (r, c) cells hpa).symm
    have hlen : (cells.erase (r, c)).length = cells.length - 1 :=
      List.length_erase_of_mem hmem
    have hle : cells.countP (fun p => decide (g.elev p.1 p.2 < center)) ≤ cells.length - 1 := by
      rw [hcount, ← hlen]; exact List.countP_le_length _
    have htot : cells.length - 1 ≠ 0 := by omega
    simp only [htot, if_false]
    have hpos : (0 : ℚ) < ((cells.length - 1 : ℕ) : ℚ) := by exact_mod_cast Nat.pos_of_ne_zero htot
    constructor
    · positivity
    · rw [div_le_one hpos]; exact_mod_cast hle

/-- Claim C2: `compute_summit_confidence` returns
`combined = 0.6 · radial + 0.4 · neighborhood`; the radial component is the
fraction of valid in-bounds directional samples strictly lower than the
candidate and defaults to exactly `0.5` when no valid directional sample
exists; the neighborhood component is the fraction of valid neighborhood
cells, the candidate cell excluded, that are strictly lower, and defaults
to exactly `0.5` when zero such samples exist; the combined value lies in
`[0, 1]`. -/
theorem c2_summit_confidence (g : Grid) (r c rd nr : ℕ)
    (hr : r < g.rows) (hc : c < g.cols) (hv : g.valid r c = true) :
    (compute_summit_confidence g r c rd nr).1
        = 3/5 * (compute_summit_confidence g r c rd nr).2.1
          + 2/5 * (compute_summit_confidence g r c rd nr).2.2
    ∧ 0 ≤ (compute_summit_confidence g r c rd nr).1
    ∧ (compute_summit_confidence g r c rd nr).1 ≤ 1
    ∧ (radialSamples g r c rd ≠ [] →
        (compute_summit_confidence g r c rd nr).2.1
          = ((radialSamples g r c rd).countP
                (fun e => decide (e < g.elev r c)) : ℚ)
              / (radialSamples g r c rd).length)
    ∧ (radialSamples g r c rd = [] →
        (compute_summit_confidence g r c rd nr).2.1 = 1/2)
    ∧ ((neighborhoodCells g r c nr).length = 1 →
        (compute_summit_confidence g r c rd nr).2.2 = 1/2)
    ∧ (2 ≤ (neighborhoodCells g r c nr).length →
        (compute_summit_confidence g r c rd nr).2.2
          = (((neighborhoodCells g r c nr).erase (r, c)).countP
                (fun p => decide (g.elev p.1 p.2 < g.elev r c)) : ℚ)
              / ((neighborhoodCells g r c nr).erase (r, c)).length) := by
  obtain ⟨hr0, hr1⟩ := compute_radial_dominance_bounds g r c rd
  obtain ⟨hn0, hn1⟩ := compute_neighborhood_dominance_bounds g r c nr hr hc hv
  refine ⟨rfl, by simp only [compute_summit_confidence]; linarith,
    by simp only [compute_summit_confidence]; linarith, ?_, ?_, ?_, ?_⟩
  · intro hne
    have hlen : (radialSamples g r c rd).length ≠ 0 := by
      simpa [List.length_eq_zero] using hne
    simp [compute_summit_confidence, compute_radial_dominance, hlen]
  · intro he
    simp [compute_summit_confidence, compute_radial_dominance, he]
  · intro h1
    simp [compute_summit_confidence, compute_neighborhood_dominance, h1]
  · intro h2
    have hmem : (r, c) ∈ neighborhoodCells g r c nr :=
      center_mem_neighborhoodCells g r c nr hr hc hv
    have hpa : (fun p : ℕ × ℕ => decide (g.elev p.1 p.2 < g.elev r c)) (r, c) = false := by
      simp
    have hcount := countP_erase_of_not
      (fun p : ℕ × ℕ => decide (g.elev p.1 p.2 < g.elev r c)) (r, c)
      (neighborhoodCells g r c nr) hpa
    have hlen : ((neighborhoodCells g r c nr).erase (r, c)).length
        = (neighborhoodCells g r c nr).length - 1 := List.length_erase_of_mem hmem
    have h1 : ¬ (neighborhoodCells g r c nr).length ≤ 1 := by omega
    have htot : (neighborhoodCells g r c nr).length - 1 ≠ 0 := by omega
    simp only [compute_summit_confidence, compute_neighborhood_dominance, h1, if_false,
      htot, hlen]
    rw [hcount]

/-- Witness for C2 on a concrete 3×3 pyramid grid. -/
theorem c2_summit_confidence_witness :
    ((1 < (Grid.mk 3 3 (fun r c => if r = 1 && c = 1 then 5 else 1) fun _ _ => true).rows
        ∧ 1 < (Grid.mk 3 3 (fun r c => if r = 1 && c = 1 then 5 else 1) fun _ _ => true).cols
        ∧ (Grid.mk 3 3 (fun r c => if r = 1 && c = 1 then 5 else 1) fun _ _ => true).valid 1 1
            = true)
      ∧ 0 ≤ (compute_summit_confidence
          (Grid.mk 3 3 (fun r c => if r = 1 && c = 1 then 5 else 1) fun _ _ => true)
          1 1 1 1).1) := by
  refine ⟨⟨by decide, by decide, by decide⟩, ?_⟩
  exact (c2_summit_confidence
    (Grid.mk 3 3 (fun r c => if r = 1 && c = 1 then 5 else 1) fun _ _ => true)
    1 1 1 1 (by decide) (by decide) (by decide)).2.1

/-- Lexicographic order on sort keys `(ℤ, ℤ, ℚ)` (Python tuple comparison). -/
def lex3Le (x y : ℤ × ℤ × ℚ) : Prop :=
  x.1 < y.1 ∨ (x.1 = y.1 ∧ (x.2.1 < y.2.1 ∨ (x.2.1 = y.2.1 ∧ x.2.2 ≤ y.2.2)))

instance (x y : ℤ × ℤ × ℚ) : Decidable (lex3Le x y) := by
  unfold lex3Le; infer_instance

/-- Lexicographic order on sort keys `(ℚ, ℚ)` (Python tuple comparison). -/
def lex2Le (x y : ℚ × ℚ) : Prop :=
  x.1 < y.1 ∨ (x.1 = y.1 ∧ x.2 ≤ y.2)

instance (x y : ℚ × ℚ) : Decidable (lex2Le x y) := by
  unfold lex2Le; infer_instance

lemma lex3Le_total (x y : ℤ × ℤ × ℚ) : lex3Le x y ∨ lex3Le y x := by
  unfold lex3Le
  rcases lt_trichotomy x.1 y.1 with h | h | h
  · exact Or.inl (Or.inl h)
  · rcases lt_trichotomy x.2.1 y.2.1 with h2 | h2 | h2
    · exact Or.inl (Or.inr ⟨h, Or.inl h2⟩)
    · rcases le_total x.2.2 y.2.2 with h3 | h3
      · exact Or.inl (Or.inr ⟨h, Or.inr ⟨h2, h3⟩⟩)
      · exact Or.inr (Or.inr ⟨h.symm, Or.inr ⟨h2.symm, h3⟩⟩)
    · exact Or.inr (Or.inr ⟨h.symm, Or.inl h2⟩)
  · exact Or.inr (Or.inl h)

lemma lex3Le_trans (x y z : ℤ × ℤ × ℚ) (h1 : lex3Le x y) (h2 : lex3Le y z) :
    lex3Le x z := by
  unfold lex3Le at *
  rcases h1 with h1 | ⟨e1, h1⟩
  · rcases h2 with h2 | ⟨e2, _⟩
    · exact Or.inl (h1.trans h2)
    · exact Or.inl (e2 ▸ h1)
  · rcases h2 with h2 | ⟨e2, h2⟩
    · exact Or.inl (e1 ▸ h2)
    · refine Or.inr ⟨e1.trans e2, ?_⟩
      rcases h1 with h1 | ⟨f1, h1⟩
      · rcases h2 with h2 | ⟨f2, _⟩
        · exact Or.inl (h1.trans h2)
        · exact Or.inl (f2 ▸ h1)
      · rcases h2 with h2 | ⟨f2, h2⟩
        · exact Or.inl (f1 ▸ h2)
        · exact Or.inr ⟨f1.trans f2, h1.trans h2⟩

lemma lex2Le_total (x y : ℚ × ℚ) : lex2Le x y ∨ lex2Le y x := by
  unfold lex2Le
  rcases lt_trichotomy x.1 y.1 with h | h | h
  · exact Or.inl (Or.inl h)
  · rcases le_total x.2 y.2 with h2 | h2
    · exact Or.inl (Or.inr ⟨h, h2⟩)
    · exact Or.inr (Or.inr ⟨h.symm, h2⟩)
  · exact Or.inr (Or.inl h)

lemma lex2Le_trans (x y z : ℚ × ℚ) (h1 : lex2Le x y) (h2 : lex2Le y z) :
    lex2Le x z := by
  unfold lex2Le at *
  rcases h1 with h1 | ⟨e1, h1⟩
  · rcases h2 with h2 | ⟨e2, _⟩
    · exact Or.inl (h1.trans h2)
    · exact Or.inl (e2 ▸ h1)
  · rcases h2 with h2 | ⟨e2, h2⟩
    · exact Or.inl (e1 ▸ h2)
    · exact Or.inr ⟨e1.trans e2, h1.trans h2⟩

/-- Sorting a list by a key into a totally preordered key space yields a
list sorted under the pulled-back relation. -/
lemma sorted_insertionSort_key {α κ : Type} (le : κ → κ → Prop)
    [DecidableRel le] (htot : ∀ x y, le x y ∨ le y x)
    (htr : ∀ x y z, le x y → le y z → le x z) (k : α → κ) (l : List α) :
    (List.insertionSort (fun a b => le (k a) (k b)) l).Sorted
      (fun a b => le (k a) (k b)) := by
  haveI : IsTotal α (fun a b => le (k a) (k b)) := ⟨fun a b => htot (k a) (k b)⟩
  haveI : IsTrans α (fun a b => le (k a) (k b)) := ⟨fun a b c => htr (k a) (k b) (k c)⟩
  exact List.sorted_insertionSort _ l

/-- Candidate record built by `snap_one_top_k` (one entry of
`candidates_data`): resolved geographic point, elevation, distance from the
seed, and rounded confidence scores. -/
structure SnapCand where
  pt : ℚ × ℚ
  elev : ℚ
  dist : ℚ
  conf : ℚ
  radial : ℚ
  neigh : ℚ
deriving DecidableEq

/-- Sort key of `snap_one_top_k` when `prefer_nearest` holds (lines
312-318): confidence binned in 0.1 buckets descending, elevation binned in
2 m buckets descending, distance ascending. -/
def snapKeyPN (a : SnapCand) : ℤ × ℤ × ℚ :=
  (-(pyTrunc (a.conf * 10)), -(pyTrunc (a.elev / 2)), a.dist)

/-- Sort key of `snap_one_top_k` when `prefer_nearest` is off (line 320):
raw confidence descending, then raw elevation descending. -/
def snapKeyRaw (a : SnapCand) : ℚ × ℚ :=
  (-a.conf, -a.elev)

/-- Embedding of the `candidates_data.sort(...)` step of `snap_one_top_k`:
a stable sort by `snapKeyPN` or `snapKeyRaw` depending on
`prefer_nearest` (Python list.sort is a stable sort by the key, so any
stable sort — here insertion sort — computes the same list). -/
def sortSnap (preferNearest : Bool) (l : List SnapCand) : List SnapCand :=
  if preferNearest then
    List.insertionSort (fun a b => lex3Le (snapKeyPN a) (snapKeyPN b)) l
  else
    List.insertionSort (fun a b => lex2Le (snapKeyRaw a) (snapKeyRaw b)) l

/-- Scored candidate of `predict_summit`: coordinates, elevation, and the
classifier probability. -/
structure MlCand where
  lat : ℚ
  lon : ℚ
  elev : ℚ
  prob : ℚ
deriving DecidableEq

/-- Sort key of `predict_summit` line 340: probability descending, then
elevation descending. -/
def mlKey (a : MlCand) : ℚ × ℚ :=
  (-a.prob, -a.elev)

/-- Embedding of `scored_candidates.sort(...)` of `predict_summit`. -/
def sortPredict (l : List MlCand) : List MlCand :=
  List.insertionSort (fun a b => lex2Le (mlKey a) (mlKey b)) l

/-- Claimed ordering relation for the classifier path: probability
descending with ties broken by elevation descending. -/
def probPriority (a b : MlCand) : Prop :=
  b.prob < a.prob ∨ (a.prob = b.prob ∧ b.elev ≤ a.elev)

/-- Claimed ordering relation for the dominance-confidence path with
`prefer_nearest` on: binned confidence descending, binned elevation
descending, then seed distance ascending. -/
def snapPriorityPN (a b : SnapCand) : Prop :=
  pyTrunc (b.conf * 10) < pyTrunc (a.conf * 10)
  ∨ (pyTrunc (a.conf * 10) = pyTrunc (b.conf * 10)
      ∧ (pyTrunc (b.elev / 2) < pyTrunc (a.elev / 2)
          ∨ (pyTrunc (a.elev / 2) = pyTrunc (b.elev / 2) ∧ a.dist ≤ b.dist)))

/-- Ordering relation actually used by the code when `prefer_nearest` is
off: raw confidence descending with ties broken by raw elevation
descending. -/
def snapPriorityRaw (a b : SnapCand) : Prop :=
  b.conf < a.conf ∨ (a.conf = b.conf ∧ b.elev ≤ a.elev)

/-- Modelled from the spec: the ordering C3 claims for the
dominance-confidence path — binned confidence descending, then binned
elevation descending, unconditionally, with seed distance as a final
tie-break only when `prefer_nearest` is enabled. -/
def specConfLe (preferNearest : Bool) (a b : SnapCand) : Prop :=
  lex3Le
    (-(pyTrunc (a.conf * 10)), -(pyTrunc (a.elev / 2)), if preferNearest then a.dist else 0)
    (-(pyTrunc (b.conf * 10)), -(pyTrunc (b.elev / 2)), if preferNearest then b.dist else 0)

instance (pn : Bool) (a b : SnapCand) : Decidable (specConfLe pn a b) := by
  unfold specConfLe; infer_instance

lemma mlKey_le_iff (a b : MlCand) : lex2Le (mlKey a) (mlKey b) ↔ probPriority a b := by
  simp only [lex2Le, mlKey, probPriority, neg_lt_neg_iff, neg_le_neg_iff, neg_inj]

lemma snapKeyPN_le_iff (a b : SnapCand) :
    lex3Le (snapKeyPN a) (snapKeyPN b) ↔ snapPriorityPN a b := by
  simp only [lex3Le, snapKeyPN, snapPriorityPN, neg_lt_neg_iff, neg_le_neg_iff, neg_inj]

lemma snapKeyRaw_le_iff (a b : SnapCand) :
    lex2Le (snapKeyRaw a) (snapKeyRaw b) ↔ snapPriorityRaw a b := by
  simp only [lex2Le, snapKeyRaw, snapPriorityRaw, neg_lt_neg_iff, neg_le_neg_iff, neg_inj]

/-- Counterexample to claim C3: with `prefer_nearest` disabled the code
sorts by raw confidence descending then raw elevation descending (line 320
of snap_to_highest.py), not by the binned buckets the claim describes for
the whole dominance-confidence path.  With confidences 0.95 and 0.91
(same 0.1-bucket) and elevations 100 and 200, the claimed binned ordering
puts the 200 m candidate first, but the code's output keeps the 0.95
candidate first, so the code's sorted output violates the claimed
ordering. -/
theorem c3_sort_counterexample :
    ¬ (sortSnap false
        [⟨(0, 0), 100, 5, 19/20, 1, 1⟩, ⟨(0, 0), 200, 7, 91/100, 1, 1⟩]).Pairwise
      (specConfLe false) := by
  have hs : sortSnap false
      [(⟨(0, 0), 100, 5, 19/20, 1, 1⟩ : SnapCand), ⟨(0, 0), 200, 7, 91/100, 1, 1⟩]
      = [⟨(0, 0), 100, 5, 19/20, 1, 1⟩, ⟨(0, 0), 200, 7, 91/100, 1, 1⟩] := by
    norm_num [sortSnap, List.insertionSort, List.orderedInsert, lex2Le, snapKeyRaw]
  rw [hs]
  intro h
  obtain ⟨hAB, -⟩ := List.pairwise_cons.mp h
  have h2 := hAB _ (List.mem_singleton.mpr rfl)
  simp only [specConfLe, lex3Le, pyTrunc] at h2
  norm_num at h2

/-- Claim C3, amended: with classifier probabilities the candidates are
sorted by probability descending, ties broken by elevation descending;
in the dominance-confidence path with `prefer_nearest` enabled they are
sorted by confidence binned in 0.1-wide buckets descending, then elevation
binned in 2-meter buckets descending, then seed distance ascending; with
`prefer_nearest` disabled they are sorted by raw confidence descending,
ties broken by raw elevation descending (no binning, no distance). -/
theorem c3_sort_priorities :
    (∀ l : List MlCand, (sortPredict l).Pairwise probPriority)
    ∧ (∀ l : List SnapCand, (sortSnap true l).Pairwise snapPriorityPN)
    ∧ (∀ l : List SnapCand, (sortSnap false l).Pairwise snapPriorityRaw) := by
  refine ⟨fun l => ?_, fun l => ?_, fun l => ?_⟩
  · have h := sorted_insertionSort_key lex2Le lex2Le_total lex2Le_trans mlKey l
    exact h.imp fun hab => (mlKey_le_iff _ _).1 hab
  · have h := sorted_insertionSort_key lex3Le lex3Le_total lex3Le_trans snapKeyPN l
    simp only [sortSnap, if_true]
    exact h.imp fun hab => (snapKeyPN_le_iff _ _).1 hab
  · have h := sorted_insertionSort_key lex2Le lex2Le_total lex2Le_trans snapKeyRaw l
    simp only [sortSnap, if_false]
    exact h.imp fun hab => (snapKeyRaw_le_iff _ _).1 hab

/-- Check of the inner separation loop of the selectors: candidate `x` is
closer than `sep` to some already-accepted candidate in `sel`. -/
def tooCloseB {α : Type} (dd : α → α → ℚ) (sep : ℚ) (sel : List α) (x : α) : Bool :=
  sel.any fun y => decide (dd x y < sep)

/-- Embedding of the greedy top-K minimum-separation selection loop of
`snap_one_top_k` (snap_to_highest.py lines 322-340): iterate the sorted
candidates, break once `k` are accepted, skip a candidate closer than
`sep` to any accepted one, else accept it at the end of the list. -/
def greedyGo {α : Type} (dd : α → α → ℚ) (sep : ℚ) (k : ℕ) :
    List α → List α → List α
  | acc, [] => acc
  | acc, x :: xs =>
    if k ≤ acc.length then acc
    else if tooCloseB dd sep acc x then greedyGo dd sep k acc xs
    else greedyGo dd sep k (acc ++ [x]) xs

lemma greedyGo_of_full {α : Type} (dd : α → α → ℚ) (sep : ℚ) (k : ℕ)
    (l acc : List α) (h : k ≤ acc.length) : greedyGo dd sep k acc l = acc := by
  cases l with
  | nil => rfl
  | cons x xs => simp [greedyGo, h]

lemma greedyGo_eq_append {α : Type} (dd : α → α → ℚ) (sep : ℚ) (k : ℕ) :
    ∀ l acc : List α, ∃ t, greedyGo dd sep k acc l = acc ++ t ∧ t.Sublist l := by
  intro l
  induction l with
  | nil => exact fun acc => ⟨[], by simp [greedyGo]⟩
  | cons x xs ih =>
    intro acc
    by_cases hk : k ≤ acc.length
    · exact ⟨[], by simp [greedyGo, hk], List.nil_sublist _⟩
    · by_cases htc : tooCloseB dd sep acc x = true
      · obtain ⟨t, ht, hs⟩ := ih acc
        exact ⟨t, by simp [greedyGo, hk, htc, ht], hs.cons x⟩
      · obtain ⟨t, ht, hs⟩ := ih (acc ++ [x])
        refine ⟨x :: t, ?_, hs.cons₂ x⟩
        simp [greedyGo, hk, htc, ht]

lemma greedyGo_pairwise {α : Type} (dd : α → α → ℚ) (sep : ℚ) (k : ℕ) :
    ∀ l acc : List α, acc.Pairwise (fun a b => sep ≤ dd b a) →
      (greedyGo dd sep k acc l).Pairwise (fun a b => sep ≤ dd b a) := by
  intro l
  induction l with
  | nil => exact fun acc h => h
  | cons x xs ih =>
    intro acc hacc
    by_cases hk : k ≤ acc.length
    · simpa [greedyGo, hk] using hacc
    · by_cases htc : tooCloseB dd sep acc x = true
      · simpa [greedyGo, hk, htc] using ih acc hacc
      · have hfar : ∀ y ∈ acc, sep ≤ dd x y := by
          intro y hy
          have := List.any_eq_false.mp (Bool.not_eq_true _ ▸ htc) y hy
          simpa using le_of_not_lt (by simpa using this)
        have hnew : (acc ++ [x]).Pairwise (fun a b => sep ≤ dd b a) := by
          rw [List.pairwise_append]
          exact ⟨hacc, List.pairwise_singleton _ _,
            fun a ha b hb => by simp at hb; subst hb; exact hfar a ha⟩
        simpa [greedyGo, hk, htc] using ih (acc ++ [x]) hnew

lemma greedyGo_length {α : Type} (dd : α → α → ℚ) (sep : ℚ) (k : ℕ) :
    ∀ l acc : List α, (greedyGo dd sep k acc l).length ≤ max acc.length k := by
  intro l
  induction l with
  | nil => intro acc; simp [greedyGo]
  | cons x xs ih =>
    intro acc
    by_cases hk : k ≤ acc.length
    · simp [greedyGo, hk]
    · by_cases htc : tooCloseB dd sep acc x = true
      · simpa [greedyGo, hk, htc] using ih acc
      · have htc' : tooCloseB dd sep acc x = false := by simpa using htc
        have h := ih (acc ++ [x])
        simp only [greedyGo, hk, if_false, htc', Bool.false_eq_true]
        simp only [List.length_append, List.length_singleton] at h
        have hk' : acc.length < k := Nat.lt_of_not_le hk
        omega

lemma greedyGo_reject {α : Type} (dd : α → α → ℚ) (sep : ℚ) (k : ℕ) :
    ∀ l acc : List α, ∀ x ∈ l, x ∉ greedyGo dd sep k acc l →
      k ≤ (greedyGo dd sep k acc l).length ∨
        ∃ y ∈ greedyGo dd sep k acc l, dd x y < sep := by
  intro l
  induction l with
  | nil => intro acc x hx; cases hx
  | cons z zs ih =>
    intro acc x hx hnot
    by_cases hk : k ≤ acc.length
    · rw [greedyGo_of_full dd sep k _ acc hk] at *
      exact Or.inl hk
    · by_cases htc : tooCloseB dd sep acc z = true
      · simp only [greedyGo, hk, if_false, htc, if_true] at hnot ⊢
        rcases List.mem_cons.mp hx with rfl | hx'
        · obtain ⟨y, hy, hlt⟩ := List.any_eq_true.mp htc
          obtain ⟨t, ht, -⟩ := greedyGo_eq_append dd sep k zs acc
          refine Or.inr ⟨y, ?_, by simpa using hlt⟩
          rw [ht]
          exact List.mem_append_left _ hy
        · exact ih acc x hx' hnot
      · have htc' : tooCloseB dd sep acc z = false := by simpa using htc
        simp only [greedyGo, hk, if_false, htc', Bool.false_eq_true] at hnot ⊢
        rcases List.mem_cons.mp hx with rfl | hx'
        · exfalso
          obtain ⟨t, ht, -⟩ := greedyGo_eq_append dd sep k zs (acc ++ [x])
          exact hnot (by rw [ht]; exact List.mem_append_left _ (by simp))
        · exact ih (acc ++ [z]) x hx' hnot

/-- Maximum of two optional elevations, treating `none` as the `-inf`
sentinel that `find_local_maxima_scipy` writes into invalid cells. -/
def omax : Option ℚ → Option ℚ → Option ℚ
  | none, b => b
  | some x, none => some x
  | some x, some y => some (max x y)

/-- Maximum valid elevation over the square neighborhood of (odd) size
`n` centered on `(r, c)`, clipped to the grid; `none` when every cell of
the neighborhood is invalid.  This is `maximum_filter(work_arr, size=n,
mode='constant', cval=-inf)` evaluated at `(r, c)` for the
`gaussian_sigma = 0` path. -/
def neighborhoodMaxVal (g : Grid) (n : ℕ) (r c : ℕ) : Option ℚ :=
  (windowPositions (r - n / 2) (min g.rows (r + n / 2 + 1))
      (c - n / 2) (min g.cols (c + n / 2 + 1))).foldr
    (fun p acc => if g.valid p.1 p.2 then omax (some (g.elev p.1 p.2)) acc else acc)
    none

/-- Embedding of the local-maximum test of `find_local_maxima_scipy`
(snap_to_highest.py lines 60-61, smoothing disabled): the cell is valid
and its elevation equals the neighborhood maximum. -/
def isLocalMax (g : Grid) (n : ℕ) (r c : ℕ) : Bool :=
  g.valid r c && decide (neighborhoodMaxVal g n r c = some (g.elev r c))

/-- Conversion of a metric confidence distance to pixels:
`max(1, int(meters / pixel_size))` (snap_to_highest.py lines 269-270). -/
def pxOf (meters pixelSize : ℚ) : ℕ :=
  max 1 (pyTrunc (meters / pixelSize)).toNat

/-- Embedding of `snap_one_top_k` (snap_to_highest.py lines 184-340) on an
already-read window.  External collaborators appear as parameters: the
per-cell geographic coordinate resolution `ds.xy` plus optional
reprojection is `cellPt`, and `haversine_m` is `d`.  The CRS/windowing
prologue (lines 205-247) belongs to the raster window provider; a window
clipped to nothing or fully masked is a `Grid` with no valid cells, for
which the function returns the empty list exactly as the source does. -/
def snap_one_top_k (g : Grid) (cellPt : ℕ → ℕ → ℚ × ℚ)
    (d : ℚ × ℚ → ℚ × ℚ → ℚ) (seed : ℚ × ℚ) (pixelSize : ℚ)
    (topK : ℕ) (minSep : ℚ) (requireLocalMax : Bool) (nbSize : ℕ)
    (preferNearest computeConf : Bool) (confRadialM confNeighM : ℚ) :
    List SnapCand :=
  let validCells := (windowPositions 0 g.rows 0 g.cols).filter fun p => g.valid p.1 p.2
  if validCells.isEmpty then []
  else
    let candCells :=
      if requireLocalMax then validCells.filter fun p => isLocalMax g nbSize p.1 p.2
      else validCells
    if candCells.isEmpty then []
    else
      let radialPx := pxOf confRadialM pixelSize
      let neighPx := pxOf confNeighM pixelSize
      let cands := candCells.map fun p =>
        let scores :=
          if computeConf then compute_summit_confidence g p.1 p.2 radialPx neighPx
          else (1, 1, 1)
        { pt := cellPt p.1 p.2, elev := g.elev p.1 p.2,
          dist := d seed (cellPt p.1 p.2),
          conf := pyRound3 scores.1, radial := pyRound3 scores.2.1,
          neigh := pyRound3 scores.2.2 : SnapCand }
      greedyGo (fun a b => d a.pt b.pt) minSep topK [] (sortSnap preferNearest cands)

/-- Embedding of `snap_one` (snap_to_highest.py lines 343-353): call
`snap_one_top_k` with `top_k = 1`, `min_separation_m = 0.0` and the
default detector/confidence parameters, return the first candidate or
`None`. -/
def snap_one (g : Grid) (cellPt : ℕ → ℕ → ℚ × ℚ) (d : ℚ × ℚ → ℚ × ℚ → ℚ)
    (seed : ℚ × ℚ) (pixelSize : ℚ) (requireLocalMax : Bool) :
    Option SnapCand :=
  match snap_one_top_k g cellPt d seed pixelSize 1 0 requireLocalMax 5 true true 20 30 with
  | [] => none
  | c :: _ => some c

/-- Raw candidate of the ML pipeline: `(lat, lon, elevation)` as produced
by `_find_candidates_from_array`. -/
structure MlRaw where
  lat : ℚ
  lon : ℚ
  elev : ℚ
deriving DecidableEq

/-- Embedding of the candidate-selection loop shared by
`find_top_elevation_candidates` (predict_summit.py lines 141-170) and
`_find_candidates_from_array` (lines 392-420): walk the
elevation-descending cells, stop at `topN` accepted, skip cells beyond
`radius` from the seed, skip cells closer than `minSep` to an accepted
candidate, else accept. -/
def findCandidatesGo (d : ℚ × ℚ → ℚ × ℚ → ℚ) (center : ℚ × ℚ)
    (radius minSep : ℚ) (topN : ℕ) : List MlRaw → List MlRaw → List MlRaw
  | acc, [] => acc
  | acc, x :: xs =>
    if topN ≤ acc.length then acc
    else if radius < d center (x.lat, x.lon) then
      findCandidatesGo d center radius minSep topN acc xs
    else if tooCloseB (fun a b => d (a.lat, a.lon) (b.lat, b.lon)) minSep acc x then
      findCandidatesGo d center radius minSep topN acc xs
    else findCandidatesGo d center radius minSep topN (acc ++ [x]) xs

/-- Embedding of `_find_candidates_from_array` (and of the identical body
of `find_top_elevation_candidates`): valid cells in row-major flatten
order, sorted by elevation descending (`np.argsort(-flat)`; tie order is
unspecified there, fixed here as the stable insertion-sort order), then
the greedy radius/separation loop.  Per-cell coordinate resolution
(`win_transform * (c + 0.5, r + 0.5)` plus optional reprojection) is the
pure parameter `cellPt`, hoisted out of the loop. -/
def findCandidatesFromArray (g : Grid) (cellPt : ℕ → ℕ → ℚ × ℚ)
    (d : ℚ × ℚ → ℚ × ℚ → ℚ) (center : ℚ × ℚ) (radius : ℚ)
    (topN : ℕ) (minSep : ℚ) : List MlRaw :=
  let validCells := (windowPositions 0 g.rows 0 g.cols).filter fun p => g.valid p.1 p.2
  if validCells.isEmpty then []
  else
    let raws : List MlRaw := validCells.map fun p =>
      ⟨(cellPt p.1 p.2).1, (cellPt p.1 p.2).2, g.elev p.1 p.2⟩
    let sorted := List.insertionSort (fun a b : MlRaw => b.elev ≤ a.elev) raws
    findCandidatesGo d center radius minSep topN [] sorted

lemma findCandidatesGo_eq_greedyGo (d : ℚ × ℚ → ℚ × ℚ → ℚ) (center : ℚ × ℚ)
    (radius minSep : ℚ) (topN : ℕ) :
    ∀ l acc : List MlRaw,
      findCandidatesGo d center radius minSep topN acc l
        = greedyGo (fun a b => d (a.lat, a.lon) (b.lat, b.lon)) minSep topN acc
            (l.filter fun x => decide (d center (x.lat, x.lon) ≤ radius)) := by
  intro l
  induction l with
  | nil => intro acc; rfl
  | cons x xs ih =>
    intro acc
    by_cases hk : topN ≤ acc.length
    · rw [greedyGo_of_full _ _ _ _ _ hk]
      simp [findCandidatesGo, hk]
    · by_cases hr : radius < d center (x.lat, x.lon)
      · have hdrop : decide (d center (x.lat, x.lon) ≤ radius) = false := by
          simpa using not_le_of_lt hr
        simp only [findCandidatesGo, hk, if_false, hr, if_true, List.filter_cons, hdrop]
        exact ih acc
      · have hkeep : decide (d center (x.lat, x.lon) ≤ radius) = true := by
          simpa using le_of_not_lt hr
        simp only [findCandidatesGo, hk, if_false, hr, List.filter_cons, hkeep, if_true]
        by_cases htc : tooCloseB (fun a b => d (a.lat, a.lon) (b.lat, b.lon)) minSep acc x = true
        · simp only [greedyGo, hk, if_false, htc, if_true]
          exact ih acc
        · have htc' : tooCloseB (fun a b => d (a.lat, a.lon) (b.lat, b.lon)) minSep acc x = false := by
            simpa using htc
        
          simp only [greedyGo, hk, if_false, htc', Bool.false_eq_true]
          exact ih (acc ++ [x])

/-- Claim C1: every final selection — `snap_one_top_k`'s selected list and
the lists built by `_find_candidates_from_array` /
`find_top_elevation_candidates` — is pairwise separated by at least the
minimum-separation parameter under the (symmetric) great-circle distance,
and acceptance is greedy over the sorted candidate list: a candidate is
accepted iff it clears every already-accepted candidate, selection is an
order-preserving sublist, stops at top-K, and whenever selection ended
below top-K every unselected candidate was rejected for being within the
separation of some accepted candidate. -/
theorem c1_greedy_min_separation
    (d : ℚ × ℚ → ℚ × ℚ → ℚ) (hsym : ∀ p q, d p q = d q p)
    (g : Grid) (cellPt : ℕ → ℕ → ℚ × ℚ) (seed center : ℚ × ℚ)
    (pixelSize radius : ℚ) (topK topN : ℕ) (minSep msep : ℚ)
    (rlm pn cc : Bool) (nb : ℕ) (crm cnm : ℚ) (cands : List SnapCand) :
    (snap_one_top_k g cellPt d seed pixelSize topK minSep rlm nb pn cc crm cnm).Pairwise
      (fun a b => minSep ≤ d a.pt b.pt)
    ∧ (findCandidatesFromArray g cellPt d center radius topN msep).Pairwise
      (fun a b => msep ≤ d (a.lat, a.lon) (b.lat, b.lon))
    ∧ (greedyGo (fun a b : SnapCand => d a.pt b.pt) minSep topK [] cands).Sublist cands
    ∧ (greedyGo (fun a b : SnapCand => d a.pt b.pt) minSep topK [] cands).length ≤ topK
    ∧ ((greedyGo (fun a b : SnapCand => d a.pt b.pt) minSep topK [] cands).length < topK →
        ∀ x ∈ cands, x ∉ greedyGo (fun a b : SnapCand => d a.pt b.pt) minSep topK [] cands →
          ∃ y ∈ greedyGo (fun a b : SnapCand => d a.pt b.pt) minSep topK [] cands,
            d x.pt y.pt < minSep) := by
  refine ⟨?_, ?_, ?_, ?_, ?_⟩
  · simp only [snap_one_top_k]
    repeat' split
    any_goals exact List.Pairwise.nil
    all_goals (
      refine List.Pairwise.imp ?_
        (greedyGo_pairwise (fun a b : SnapCand => d a.pt b.pt) minSep topK _ []
          List.Pairwise.nil);
      intro a b hab;
      exact hsym b.pt a.pt ▸ hab)
  · simp only [findCandidatesFromArray]
    split
    · exact List.Pairwise.nil
    · rw [findCandidatesGo_eq_greedyGo]
      refine List.Pairwise.imp ?_
        (greedyGo_pairwise (fun a b : MlRaw => d (a.lat, a.lon) (b.lat, b.lon))
          msep topN _ [] List.Pairwise.nil)
      intro a b hab
      exact hsym (b.lat, b.lon) (a.lat, a.lon) ▸ hab
  · obtain ⟨t, ht, hs⟩ := greedyGo_eq_append
      (fun a b : SnapCand => d a.pt b.pt) minSep topK cands []
    rw [ht]
    simpa using hs
  · have h := greedyGo_length (fun a b : SnapCand => d a.pt b.pt) minSep topK cands []
    simpa using h
  · intro hlt x hx hnot
    rcases greedyGo_reject (fun a b : SnapCand => d a.pt b.pt) minSep topK cands [] x hx hnot
      with h | h
    · omega
    · exact h

/-- Witness griddle for C1: a single valid cell at elevation 5. -/
def c1Grid : Grid :=
  Grid.mk 1 1 (fun _ _ => 5) fun _ _ => true

/-- Witness for C1 at a concrete grid and a concrete constant symmetric
distance function. -/
theorem c1_greedy_min_separation_witness :
    (snap_one_top_k c1Grid (fun _ _ => (0, 0)) (fun _ _ => 7) (0, 0) 1 1 3
        true 5 true true 20 30).Pairwise
      (fun a b => 3 ≤ (fun _ _ : ℚ × ℚ => (7 : ℚ)) a.pt b.pt)
    ∧ (findCandidatesFromArray c1Grid (fun _ _ => (0, 0)) (fun _ _ => 7) (0, 0) 50 2 3).Pairwise
      (fun a b => 3 ≤ (fun _ _ : ℚ × ℚ => (7 : ℚ)) (a.lat, a.lon) (b.lat, b.lon))
    ∧ (greedyGo (fun a b : SnapCand => (fun _ _ : ℚ × ℚ => (7 : ℚ)) a.pt b.pt) 3 1 []
        []).Sublist []
    ∧ (greedyGo (fun a b : SnapCand => (fun _ _ : ℚ × ℚ => (7 : ℚ)) a.pt b.pt) 3 1 []
        []).length ≤ 1
    ∧ ((greedyGo (fun a b : SnapCand => (fun _ _ : ℚ × ℚ => (7 : ℚ)) a.pt b.pt) 3 1 []
        []).length < 1 →
        ∀ x ∈ ([] : List SnapCand),
          x ∉ greedyGo (fun a b : SnapCand => (fun _ _ : ℚ × ℚ => (7 : ℚ)) a.pt b.pt) 3 1 [] [] →
          ∃ y ∈ greedyGo (fun a b : SnapCand => (fun _ _ : ℚ × ℚ => (7 : ℚ)) a.pt b.pt) 3 1 [] [],
            (fun _ _ : ℚ × ℚ => (7 : ℚ)) x.pt y.pt < 3) :=
  c1_greedy_min_separation (fun _ _ => 7) (fun _ _ => rfl) c1Grid
    (fun _ _ => (0, 0)) (0, 0) (0, 0) 1 50 1 2 3 3 true true true 5 20 30 []

/-- Claim C10: `snap_one` returns exactly the first element of
`snap_one_top_k` at the same dataset, coordinates, radius and
`require_local_max` flag with `top_k = 1` and `min_separation_m = 0.0`,
and returns `None` exactly when that call returns the empty list. -/
theorem c10_snap_one_refinement (g : Grid) (cellPt : ℕ → ℕ → ℚ × ℚ)
    (d : ℚ × ℚ → ℚ × ℚ → ℚ) (seed : ℚ × ℚ) (pixelSize : ℚ)
    (requireLocalMax : Bool) :
    snap_one g cellPt d seed pixelSize requireLocalMax
      = (snap_one_top_k g cellPt d seed pixelSize 1 0 requireLocalMax 5 true true 20 30).head?
    ∧ (snap_one g cellPt d seed pixelSize requireLocalMax = none
        ↔ snap_one_top_k g cellPt d seed pixelSize 1 0 requireLocalMax 5 true true 20 30 = []) := by
  unfold snap_one
  cases h : snap_one_top_k g cellPt d seed pixelSize 1 0 requireLocalMax 5 true true 20 30 with
  | nil => simp
  | cons c cs => simp

/-- The sixteen feature names of `get_feature_names`
(extract_features.py lines 287-306), one constructor per Python string
key, in the same order. -/
inductive Feat
  | elev_rank
  | gradient_N
  | gradient_S
  | gradient_E
  | gradient_W
  | gradient_NE
  | gradient_SE
  | gradient_SW
  | gradient_NW
  | min_gradient
  | mean_gradient
  | grad_variance
  | local_relief
  | pct_lower
  | curvature
  | dist_to_seed
deriving DecidableEq

/-- Embedding of `get_feature_names`: the fixed feature order. -/
def get_feature_names : List Feat :=
  [.elev_rank, .gradient_N, .gradient_S, .gradient_E, .gradient_W,
   .gradient_NE, .gradient_SE, .gradient_SW, .gradient_NW,
   .min_gradient, .mean_gradient, .grad_variance, .local_relief,
   .pct_lower, .curvature, .dist_to_seed]

/-- Model of an IEEE float feature value: finite, or one of the non-finite
values the `np.isnan`/`np.isinf` clamp tests for. -/
inductive FVal
  | fin (q : ℚ)
  | nan
  | inf
  | ninf
deriving DecidableEq

/-- The defensive clamp of predict_summit.py line 317:
`0.0 if (np.isnan(v) or np.isinf(v)) else v`. -/
def sanitizeF : FVal → ℚ
  | .fin q => q
  | .nan => 0
  | .inf => 0
  | .ninf => 0

/-- Embedding of the vector construction of predict_summit.py lines
314-317: `[features.get(name, 0.0) for name in feature_names]` followed by
the NaN/Inf clamp.  A features dict is a partial map from names to float
values. -/
def featureVector (f : Feat → Option FVal) : List ℚ :=
  (get_feature_names.map fun n => (f n).getD (.fin 0)).map sanitizeF

/-- The eight gradient directions of `_extract_features_from_array`
(predict_summit.py lines 490-493), in dict order. -/
inductive Dir
  | N
  | S
  | E
  | W
  | NE
  | SE
  | SW
  | NW
deriving DecidableEq

/-- Row/column offsets of each direction. -/
def dirOff : Dir → ℤ × ℤ
  | .N => (-1, 0)
  | .S => (1, 0)
  | .E => (0, 1)
  | .W => (0, -1)
  | .NE => (-1, 1)
  | .SE => (1, 1)
  | .SW => (1, -1)
  | .NW => (-1, -1)

/-- Embedding of one directional gradient sample of
`_extract_features_from_array` (predict_summit.py lines 495-505, likewise
`compute_directional_gradients` in extract_features.py): elevation drop
`center - target` when the target cell is in the window and valid,
otherwise `0.0`. -/
def gradientAt (g : Grid) (r c : ℕ) (distCells : ℕ) (dir : Dir) : ℚ :=
  let o := dirOff dir
  let tr : ℤ := (r : ℤ) + o.1 * distCells
  let tc : ℤ := (c : ℤ) + o.2 * distCells
  if g.validAt tr tc then g.elev r c - g.elev tr.toNat tc.toNat else 0

/-- Claim C7: the terrain descriptor vector handed to the classifier has
exactly 16 entries, in the fixed claimed order; a missing dict entry
contributes `0.0`; non-finite values are clamped to `0.0`; finite values
pass through; and a gradient sample falling out of the window or on an
invalid cell contributes `0.0` to its own slot. -/
theorem c7_feature_vector (f : Feat → Option FVal) (g : Grid)
    (r c dc : ℕ) (dir : Dir) :
    (featureVector f).length = 16
    ∧ featureVector f =
        [sanitizeF ((f .elev_rank).getD (.fin 0)),
         sanitizeF ((f .gradient_N).getD (.fin 0)),
         sanitizeF ((f .gradient_S).getD (.fin 0)),
         sanitizeF ((f .gradient_E).getD (.fin 0)),
         sanitizeF ((f .gradient_W).getD (.fin 0)),
         sanitizeF ((f .gradient_NE).getD (.fin 0)),
         sanitizeF ((f .gradient_SE).getD (.fin 0)),
         sanitizeF ((f .gradient_SW).getD (.fin 0)),
         sanitizeF ((f .gradient_NW).getD (.fin 0)),
         sanitizeF ((f .min_gradient).getD (.fin 0)),
         sanitizeF ((f .mean_gradient).getD (.fin 0)),
         sanitizeF ((f .grad_variance).getD (.fin 0)),
         sanitizeF ((f .local_relief).getD (.fin 0)),
         sanitizeF ((f .pct_lower).getD (.fin 0)),
         sanitizeF ((f .curvature).getD (.fin 0)),
         sanitizeF ((f .dist_to_seed).getD (.fin 0))]
    ∧ (∀ q, sanitizeF (.fin q) = q)
    ∧ sanitizeF .nan = 0 ∧ sanitizeF .inf = 0 ∧ sanitizeF .ninf = 0
    ∧ (∀ n, f n = none → sanitizeF ((f n).getD (.fin 0)) = 0)
    ∧ (¬ g.validAt ((r : ℤ) + (dirOff dir).1 * dc) ((c : ℤ) + (dirOff dir).2 * dc) →
        gradientAt g r c dc dir = 0) := by
  refine ⟨rfl, rfl, fun q => rfl, rfl, rfl, rfl, ?_, ?_⟩
  · intro n hn
    simp [hn, sanitizeF]
  · intro hinv
    simp only [gradientAt, if_neg hinv]

/-- Witness for C7 on the empty features dict and a 1×1 grid whose north
gradient sample falls out of the window. -/
theorem c7_feature_vector_witness :
    (featureVector fun _ => none).length = 16
    ∧ sanitizeF (((fun _ : Feat => (none : Option FVal)) .curvature).getD (.fin 0)) = 0
    ∧ gradientAt (Grid.mk 1 1 (fun _ _ => 5) fun _ _ => true) 0 0 1 .N = 0 := by
  refine ⟨(c7_feature_vector (fun _ => none)
      (Grid.mk 1 1 (fun _ _ => 5) fun _ _ => true) 0 0 1 .N).1, ?_, ?_⟩
  · exact (c7_feature_vector (fun _ => none)
      (Grid.mk 1 1 (fun _ _ => 5) fun _ _ => true) 0 0 1 .N).2.2.2.2.2.2.1 .curvature rfl
  · exact (c7_feature_vector (fun _ => none)
      (Grid.mk 1 1 (fun _ _ => 5) fun _ _ => true) 0 0 1 .N).2.2.2.2.2.2.2 (by decide)

/-- Result of one `predict_summit` request: an error record or the success
record (best candidate, optional highest-elevation report, top-K list).
The counters of the Python dict are recoverable from the fields and are
elided. -/
inductive PredictOut
  | err (e : String)
  | ok (best : MlCand) (highest : Option MlCand) (top : List MlCand)
deriving DecidableEq

/-- The `highest_elev_candidate` field of a result. -/
def PredictOut.highestField : PredictOut → Option MlCand
  | .ok _ h _ => h
  | .err _ => none

/-- Embedding of the scoring loop of `predict_summit` (predict_summit.py
lines 300-334): drop candidates whose feature extraction fails, build the
clamped feature vector, and score — an adapter failure downgrades the
probability to `0.0` (`except: proba = 0.0`).  The classifier adapter is
the opaque parameter `scoreFn`; `none` models a raised exception. -/
def scoredList {μ : Type} (m : μ) (scoreFn : μ → List ℚ → Option ℚ)
    (featuresOf : MlRaw → Option (Feat → Option FVal)) (cands : List MlRaw) :
    List MlCand :=
  cands.filterMap fun c =>
    (featuresOf c).map fun f =>
      ⟨c.lat, c.lon, c.elev, (scoreFn m (featureVector f)).getD 0⟩

/-- Python `max(xs, key=elevation)` over a nonempty list: first maximal
element. -/
def pyMaxElev (x : MlCand) (xs : List MlCand) : MlCand :=
  xs.foldl (fun acc y => if acc.elev < y.elev then y else acc) x

/-- Embedding of `predict_summit` lines 296-363 after candidate finding:
score, sort by probability then elevation, pick the best, and attach the
highest-elevation candidate only when it differs from the best
(`if highest_elev_candidate != best else None`). -/
def scoreStage {μ : Type} (m : μ) (scoreFn : μ → List ℚ → Option ℚ)
    (featuresOf : MlRaw → Option (Feat → Option FVal)) (topK : ℕ)
    (cands : List MlRaw) : PredictOut :=
  let scored := scoredList m scoreFn featuresOf cands
  match sortPredict scored with
  | [] => .err "no_valid_candidates"
  | best :: rest =>
    let hi := pyMaxElev best rest
    .ok best (if hi = best then none else some hi) ((best :: rest).take topK)

/-- Embedding of `predict_summit` (predict_summit.py lines 190-363) on an
already-read master window: load the model (its `joblib.load` outcome is
the `Option μ` parameter, `none` modelling the exception path), find the
top-elevation candidates with the hard-coded `min_separation_m = 5.0`,
fail with `no_candidates` when none are found, else score and rank. -/
def predict_summit {μ : Type} (g : Grid) (cellPt : ℕ → ℕ → ℚ × ℚ)
    (d : ℚ × ℚ → ℚ × ℚ → ℚ) (center : ℚ × ℚ) (radius : ℚ)
    (model? : Option μ) (scoreFn : μ → List ℚ → Option ℚ)
    (featuresOf : MlRaw → Option (Feat → Option FVal))
    (topK maxCands : ℕ) : PredictOut :=
  match model? with
  | none => .err "model_load_failed"
  | some m =>
    let cands := findCandidatesFromArray g cellPt d center radius maxCands 5
    if cands.isEmpty then .err "no_candidates"
    else scoreStage m scoreFn featuresOf topK cands

/-- Embedding of `generate_candidate_grid` (predict_summit.py lines
35-66): a square lattice of step `stepM` meters clipped to `radius` around
the seed; defined in the source but never called by `predict_summit`. -/
def generate_candidate_grid (d : ℚ × ℚ → ℚ × ℚ → ℚ) (cosLat : ℚ)
    (lat lon radius stepM : ℚ) : List (ℚ × ℚ) :=
  let latPerM : ℚ := 1 / 111320
  let lonPerM : ℚ := 1 / (111320 * cosLat)
  let steps : ℤ := pyTrunc (radius / stepM)
  let idxs : List ℤ :=
    if steps < 0 then []
    else (List.range (2 * steps.toNat + 1)).map fun k => (k : ℤ) - steps
  (idxs.flatMap fun i => idxs.map fun j =>
      (lat + i * stepM * latPerM, lon + j * stepM * lonPerM)).filter
    fun p => decide (d (lat, lon) p ≤ radius)

/-- Modelled from the spec: the engine claim C5 describes — on zero
detector candidates it "falls back to a coarser grid-sampling strategy
before failing outright with NoCandidates".  The coarse sampler is the
source's (uncalled) `generate_candidate_grid`; the per-point elevation
lookup the source lacks for it is the parameter `elevAt`. -/
def predict_summit_with_fallback {μ : Type} (g : Grid)
    (cellPt : ℕ → ℕ → ℚ × ℚ) (d : ℚ × ℚ → ℚ × ℚ → ℚ) (center : ℚ × ℚ)
    (radius : ℚ) (model? : Option μ) (scoreFn : μ → List ℚ → Option ℚ)
    (featuresOf : MlRaw → Option (Feat → Option FVal))
    (topK maxCands : ℕ) (cosLat stepM : ℚ) (elevAt : ℚ × ℚ → ℚ) :
    PredictOut :=
  match model? with
  | none => .err "model_load_failed"
  | some m =>
    let cands := findCandidatesFromArray g cellPt d center radius maxCands 5
    if cands.isEmpty then
      let fb := (generate_candidate_grid d cosLat center.1 center.2 radius stepM).map
        fun p => (⟨p.1, p.2, elevAt p⟩ : MlRaw)
      if fb.isEmpty then .err "no_candidates"
      else scoreStage m scoreFn featuresOf topK fb
    else scoreStage m scoreFn featuresOf topK cands

/-- One line of a JSONL batch stream: blank, unparseable, or a record with
a seed id and payload. -/
inductive Line (α : Type)
  | blank
  | malformed
  | record (id : String) (payload : α)

/-- Embedding of the batch loop of predict_summit.py `main` (lines
575-600) together with its `iter_jsonl` (lines 554-562): blank lines are
skipped, lines that fail `json.loads` are skipped (`except
JSONDecodeError: continue`), and each parsed record yields exactly one
printed result carrying its `peak_id`. -/
def predictBatch {α β : Type} (f : α → β) : List (Line α) → List (String × β)
  | [] => []
  | .blank :: ls => predictBatch f ls
  | .malformed :: ls => predictBatch f ls
  | .record i a :: ls => (i, f a) :: predictBatch f ls

/-- Embedding of the batch loop of snap_to_highest.py `main` (lines
385-424) together with its `iter_jsonl` (lines 30-35): blank lines are
skipped; the per-record `try/except` turns any handling error into an
error record with the same `peak_id` (the total handler `f`); but
`json.loads` runs inside the generator, outside the `try`, so an
unparseable line raises out of the `for` loop and aborts the remainder of
the stream. -/
def snapBatch {α β : Type} (f : α → β) : List (Line α) → List (String × β)
  | [] => []
  | .blank :: ls => snapBatch f ls
  | .malformed :: _ => []
  | .record i a :: ls => (i, f a) :: snapBatch f ls

/-- The parsed records of a stream, in order. -/
def parsedRecords {α : Type} : List (Line α) → List (String × α)
  | [] => []
  | .blank :: ls => parsedRecords ls
  | .malformed :: ls => parsedRecords ls
  | .record i a :: ls => (i, a) :: parsedRecords ls

/-- The longest stream segment before the first unparseable line. -/
def untilMalformed {α : Type} : List (Line α) → List (Line α)
  | [] => []
  | .blank :: ls => Line.blank :: untilMalformed ls
  | .malformed :: _ => []
  | .record i a :: ls => Line.record i a :: untilMalformed ls

/-- Per-record handler of predict_summit.py `main`: missing coordinates
give an error record, otherwise `predict_summit` runs with the loaded
model. -/
def predictHandle {μ : Type} (g : Grid) (cellPt : ℕ → ℕ → ℚ × ℚ)
    (d : ℚ × ℚ → ℚ × ℚ → ℚ) (model? : Option μ)
    (scoreFn : μ → List ℚ → Option ℚ)
    (featuresOf : MlRaw → Option (Feat → Option FVal)) (topK maxCands : ℕ) :
    Option (ℚ × ℚ) × ℚ → PredictOut
  | (none, _) => .err "missing_coords"
  | (some center, radius) =>
    predict_summit g cellPt d center radius model? scoreFn featuresOf topK maxCands

lemma pyMaxElev_spec : ∀ (xs : List MlCand) (x : MlCand),
    pyMaxElev x xs ∈ x :: xs ∧ ∀ y ∈ x :: xs, y.elev ≤ (pyMaxElev x xs).elev := by
  intro xs
  induction xs with
  | nil =>
    intro x
    refine ⟨List.mem_singleton.mpr rfl, ?_⟩
    intro y hy
    rw [List.mem_singleton.mp hy]
    exact le_refl _
  | cons y ys ih =>
    intro x
    by_cases h : x.elev < y.elev
    · have hstep : pyMaxElev x (y :: ys) = pyMaxElev y ys := by
        simp [pyMaxElev, List.foldl_cons, h]
      obtain ⟨hmem, hb⟩ := ih y
      rw [hstep]
      constructor
      · rcases List.mem_cons.mp hmem with h1 | h1
        · rw [h1]
          exact List.mem_cons_of_mem _ (List.mem_cons_self _ _)
        · exact List.mem_cons_of_mem _ (List.mem_cons_of_mem _ h1)
      · intro z hz
        rcases List.mem_cons.mp hz with rfl | hz'
        · exact le_trans (le_of_lt h) (hb y (List.mem_cons_self _ _))
        · exact hb z hz'
    · have hstep : pyMaxElev x (y :: ys) = pyMaxElev x ys := by
        simp [pyMaxElev, List.foldl_cons, h]
      obtain ⟨hmem, hb⟩ := ih x
      rw [hstep]
      constructor
      · rcases List.mem_cons.mp hmem with h1 | h1
        · rw [h1]
          exact List.mem_cons_self _ _
        · exact List.mem_cons_of_mem _ (List.mem_cons_of_mem _ h1)
      · intro z hz
        rcases List.mem_cons.mp hz with rfl | hz'
        · exact hb z (List.mem_cons_self _ _)
        · rcases List.mem_cons.mp hz' with rfl | hz''
          · exact le_trans (le_of_not_lt h) (hb x (List.mem_cons_self _ _))
          · exact hb z (List.mem_cons_of_mem _ hz'')

/-- Counterexample to claim C4: with a single scored candidate the best
pick and the highest-elevation candidate coincide, and `predict_summit`
then sets `highest_elev_candidate` to `None` (predict_summit.py line 362:
`if highest_elev_candidate != best else None`) instead of always
reporting it. -/
theorem c4_counterexample :
    predict_summit (Grid.mk 1 1 (fun _ _ => 5) fun _ _ => true)
      (fun _ _ => (0, 0)) (fun _ _ => 0) (0, 0) 50 (some ())
      (fun _ _ => some 1) (fun _ => some fun _ => none) 5 15
      = .ok ⟨0, 0, 5, 1⟩ none [⟨0, 0, 5, 1⟩]
    ∧ (PredictOut.ok ⟨0, 0, 5, 1⟩ none [⟨0, 0, 5, 1⟩]).highestField = none := by
  exact ⟨by decide, rfl⟩

/-- Claim C4, amended: a successful `predict_summit` result carries the
highest-elevation candidate of the scored set as a separate field exactly
when that candidate differs from the best (top-ranked) pick; when the best
pick already is the highest-elevation candidate the field is `None`.
When present, the reported candidate is a scored candidate of maximal
elevation. -/
theorem c4_highest_elev_reporting {μ : Type} (m : μ)
    (sf : μ → List ℚ → Option ℚ) (fo : MlRaw → Option (Feat → Option FVal))
    (topK : ℕ) (cands : List MlRaw) (b : MlCand) (h : Option MlCand)
    (t : List MlCand)
    (hres : scoreStage m sf fo topK cands = .ok b h t) :
    (h = none → ∀ y ∈ sortPredict (scoredList m sf fo cands), y.elev ≤ b.elev)
    ∧ (∀ hi, h = some hi → hi ≠ b
        ∧ hi ∈ sortPredict (scoredList m sf fo cands)
        ∧ ∀ y ∈ sortPredict (scoredList m sf fo cands), y.elev ≤ hi.elev) := by
  cases hsort : sortPredict (scoredList m sf fo cands) with
  | nil =>
    exfalso
    simp only [scoreStage, hsort] at hres
    cases hres
  | cons best rest =>
    simp only [scoreStage, hsort] at hres
    injection hres with e1 e2 e3
    subst e1
    obtain ⟨hmem, hbound⟩ := pyMaxElev_spec rest best
    constructor
    · intro hnone
      subst hnone
      by_cases hib : pyMaxElev best rest = best
      · intro y hy
        have hb := hbound y hy
        rwa [hib] at hb
      · rw [if_neg hib] at e2
        cases e2
    · intro hi hhi
      subst hhi
      by_cases hib : pyMaxElev best rest = best
      · rw [if_pos hib] at e2
        cases e2
      · rw [if_neg hib] at e2
        injection e2 with e4
        refine ⟨by rw [← e4]; exact hib, ?_, ?_⟩
        · rw [← e4]
          exact hmem
        · intro y hy
          rw [← e4]
          exact hbound y hy

/-- Witness for C4 (amended) on a concrete one-candidate request. -/
theorem c4_highest_elev_reporting_witness :
    scoreStage () (fun _ _ => some 1) (fun _ => some fun _ => none) 3
        [(⟨0, 0, 5⟩ : MlRaw)]
      = .ok ⟨0, 0, 5, 1⟩ none [⟨0, 0, 5, 1⟩]
    ∧ ((none : Option MlCand) = none →
        ∀ y ∈ sortPredict (scoredList () (fun _ _ => some 1)
            (fun _ => some fun _ => none) [(⟨0, 0, 5⟩ : MlRaw)]),
          y.elev ≤ (⟨0, 0, 5, 1⟩ : MlCand).elev) :=
  ⟨by decide,
    fun _ => (c4_highest_elev_reporting () (fun _ _ => some 1)
      (fun _ => some fun _ => none) 3 [⟨0, 0, 5⟩] ⟨0, 0, 5, 1⟩ none
      [⟨0, 0, 5, 1⟩] (by decide)).1 rfl⟩

/-- Counterexample to claim C5: on a request whose only valid cell lies
beyond the search radius the detector finds zero candidates and
`predict_summit` fails outright with `no_candidates` (predict_summit.py
lines 293-294); no coarser grid-sampling fallback runs, although the
spec-modelled fallback engine would have produced a successful result
from `generate_candidate_grid` at the same input. -/
theorem c5_counterexample :
    predict_summit (Grid.mk 1 1 (fun _ _ => 5) fun _ _ => true)
      (fun _ _ => (0, 0)) (fun p q => if p = q then 0 else 100) (1, 1) 0
      (some ()) (fun _ _ => some 1) (fun _ => some fun _ => none) 5 15
      = .err "no_candidates"
    ∧ predict_summit_with_fallback (Grid.mk 1 1 (fun _ _ => 5) fun _ _ => true)
      (fun _ _ => (0, 0)) (fun p q => if p = q then 0 else 100) (1, 1) 0
      (some ()) (fun _ _ => some 1) (fun _ => some fun _ => none) 5 15 1 5
      (fun _ => 5)
      = .ok ⟨1, 1, 5, 1⟩ none [⟨1, 1, 5, 1⟩] := by
  constructor
  · decide
  · have hgrid : generate_candidate_grid
        (fun p q : ℚ × ℚ => if p = q then 0 else 100) 1 1 1 0 5 = [(1, 1)] := by
      have hsteps : pyTrunc ((0 : ℚ) / 5) = 0 := by
        norm_num [pyTrunc]
      simp only [generate_candidate_grid, hsteps]
      have hr : List.range 1 = [0] := rfl
      norm_num [hr, List.flatMap_cons, List.flatMap_nil, List.filter_cons]
    simp only [predict_summit_with_fallback]
    rw [show findCandidatesFromArray (Grid.mk 1 1 (fun _ _ => 5) fun _ _ => true)
        (fun _ _ => (0, 0)) (fun p q : ℚ × ℚ => if p = q then 0 else 100)
        (1, 1) 0 15 5 = [] from by decide]
    simp only [List.isEmpty_nil, if_true, hgrid, List.map_cons, List.map_nil]
    decide

/-- Claim C5, amended: when the detector finds zero candidates the engine
fails the request outright with `NoCandidates`; no fallback strategy is
invoked (the coarse sampler `generate_candidate_grid` exists in the source
but `predict_summit` never calls it). -/
theorem c5_no_candidates_fails_outright {μ : Type} (g : Grid)
    (cellPt : ℕ → ℕ → ℚ × ℚ) (d : ℚ × ℚ → ℚ × ℚ → ℚ) (center : ℚ × ℚ)
    (radius : ℚ) (m : μ) (sf : μ → List ℚ → Option ℚ)
    (fo : MlRaw → Option (Feat → Option FVal)) (topK maxC : ℕ)
    (hempty : findCandidatesFromArray g cellPt d center radius maxC 5 = []) :
    predict_summit g cellPt d center radius (some m) sf fo topK maxC
      = .err "no_candidates" := by
  simp [predict_summit, hempty]

/-- Witness for C5 (amended) on a concrete request with an all-masked
window. -/
theorem c5_no_candidates_fails_outright_witness :
    findCandidatesFromArray (Grid.mk 2 2 (fun _ _ => 5) fun _ _ => false)
      (fun _ _ => (0, 0)) (fun _ _ => 0) (0, 0) 50 15 5 = []
    ∧ predict_summit (Grid.mk 2 2 (fun _ _ => 5) fun _ _ => false)
      (fun _ _ => (0, 0)) (fun _ _ => 0) (0, 0) 50 (some ())
      (fun _ _ => some 1) (fun _ => some fun _ => none) 5 15
      = .err "no_candidates" :=
  ⟨by decide,
    c5_no_candidates_fails_outright (Grid.mk 2 2 (fun _ _ => 5) fun _ _ => false)
      (fun _ _ => (0, 0)) (fun _ _ => 0) (0, 0) 50 () (fun _ _ => some 1)
      (fun _ => some fun _ => none) 5 15 (by decide)⟩

lemma scoredList_length {μ : Type} (m : μ) (sf : μ → List ℚ → Option ℚ)
    (fo : MlRaw → Option (Feat → Option FVal)) :
    ∀ cands, (scoredList m sf fo cands).length
      = cands.countP fun c => (fo c).isSome := by
  intro cands
  induction cands with
  | nil => rfl
  | cons c cs ih =>
    cases hfo : fo c <;>
      simp [scoredList, List.filterMap_cons, hfo, List.countP_cons, ih,
        scoredList] <;>
      simpa [scoredList] using ih

/-- Claim C6: a classifier-adapter failure on one candidate downgrades
that candidate's probability to `0.0` while scoring of the rest continues
(the scored list keeps one entry per feature-extractable candidate), and
with a failed model load every record of the batch yields an error record
— no request in the run produces a success result. -/
theorem c6_failure_isolation {μ : Type} (m : μ) (sf : μ → List ℚ → Option ℚ)
    (fo : MlRaw → Option (Feat → Option FVal)) (cands : List MlRaw)
    (c : MlRaw) (f : Feat → Option FVal)
    (hc : c ∈ cands) (hf : fo c = some f)
    (hs : sf m (featureVector f) = none) :
    (⟨c.lat, c.lon, c.elev, 0⟩ : MlCand) ∈ scoredList m sf fo cands
    ∧ (scoredList m sf fo cands).length = cands.countP (fun x => (fo x).isSome)
    ∧ ∀ (g : Grid) (cellPt : ℕ → ℕ → ℚ × ℚ) (d : ℚ × ℚ → ℚ × ℚ → ℚ)
        (sf2 : μ → List ℚ → Option ℚ)
        (fo2 : MlRaw → Option (Feat → Option FVal)) (topK maxC : ℕ)
        (lines : List (Line (Option (ℚ × ℚ) × ℚ))) (out : String × PredictOut),
        out ∈ predictBatch
          (predictHandle g cellPt d (none : Option μ) sf2 fo2 topK maxC) lines →
        ∀ b hi t, out.2 ≠ PredictOut.ok b hi t := by
  refine ⟨?_, scoredList_length m sf fo cands, ?_⟩
  · refine List.mem_filterMap.mpr ⟨c, hc, ?_⟩
    rw [hf]
    simp [hs]
  · intro g cellPt d sf2 fo2 topK maxC lines out hout b hi t
    induction lines with
    | nil => cases hout
    | cons l ls ih =>
      cases l with
      | blank => exact ih (by simpa [predictBatch] using hout)
      | malformed => exact ih (by simpa [predictBatch] using hout)
      | record i a =>
        rcases List.mem_cons.mp hout with rfl | hmem
        · obtain ⟨coords?, radius⟩ := a
          cases coords? with
          | none => simp [predictHandle]
          | some center => simp [predictHandle, predict_summit]
        · exact ih hmem

/-- Witness for C6 on a concrete one-candidate request whose adapter
always fails. -/
theorem c6_failure_isolation_witness :
    (⟨0, 0, 5, 0⟩ : MlCand) ∈ scoredList () (fun _ _ => none)
      (fun _ => some fun _ => none) [(⟨0, 0, 5⟩ : MlRaw)] :=
  (c6_failure_isolation () (fun _ _ => none) (fun _ => some fun _ => none)
    [⟨0, 0, 5⟩] ⟨0, 0, 5⟩ (fun _ => none) (List.mem_singleton.mpr rfl) rfl
    rfl).1

/-- Counterexample to claim C8: for the three-line stream
`[record p1, malformed, record p2]` the snap batch loop emits only the
record for `p1` — the unparseable second line raises inside `iter_jsonl`,
outside the per-record `try`, aborting the stream and losing `p2`'s
output — and the ML batch loop silently skips the malformed line, so
neither pipeline emits one output per input record line. -/
theorem c8_counterexample :
    (parsedRecords [Line.record "p1" (0 : ℕ), Line.malformed,
        Line.record "p2" 1]).length = 2
    ∧ snapBatch (fun n : ℕ => n)
        [Line.record "p1" 0, Line.malformed, Line.record "p2" 1]
      = [("p1", 0)]
    ∧ predictBatch (fun n : ℕ => n)
        [Line.record "p1" 0, Line.malformed, Line.record "p2" 1]
      = [("p1", 0), ("p2", 1)] :=
  ⟨rfl, rfl, rfl⟩

/-- Claim C8, amended: each successfully parsed record yields exactly one
output record, in input order, carrying that record's seed id, and a
handling error on a parsed record degrades to an error record through the
total per-record handler; but a line that fails JSON parsing is skipped
with no output in the ML pipeline, and aborts the remainder of the stream
in the snap pipeline (outputs stop at the first malformed line). -/
theorem c8_batch_emission {α β : Type} (f : α → β) (lines : List (Line α)) :
    predictBatch f lines = (parsedRecords lines).map (fun r => (r.1, f r.2))
    ∧ snapBatch f lines
      = (parsedRecords (untilMalformed lines)).map fun r => (r.1, f r.2) := by
  induction lines with
  | nil => exact ⟨rfl, rfl⟩
  | cons l ls ih =>
    cases l <;>
      simp [predictBatch, snapBatch, parsedRecords, untilMalformed, ih.1, ih.2]

/-- Embedding of `deg_window_from_radius` of snap_to_highest.py (lines
23-27): `(Δlat, Δlon)` with the `max(0.1, cos(lat))` floor on the
longitude denominator.  `cos(lat)` is the opaque input `cosLat`. -/
def deg_window_from_radius (cosLat radius : ℚ) : ℚ × ℚ :=
  (radius / 111320, radius / (111320 * max (1/10) cosLat))

/-- Embedding of `deg_window_from_radius` of extract_features.py (lines
33-39, also imported by predict_summit.py): bounding box
`(min_lon, min_lat, max_lon, max_lat)` using `1 / (111320 · cos(lat))`
with no floor on the cosine. -/
def deg_window_from_radius_ml (cosLat lat lon radius : ℚ) : ℚ × ℚ × ℚ × ℚ :=
  let latDegPerM : ℚ := 1 / 111320
  let lonDegPerM : ℚ := 1 / (111320 * cosLat)
  let dlat := radius * latDegPerM
  let dlon := radius * lonDegPerM
  (lon - dlon, lat - dlat, lon + dlon, lat + dlat)

/-- Counterexample to claim C9: the ML pipeline's conversion
(extract_features.py lines 33-39) does not floor the cosine.  At
`cos(lat) = 1/100` (a latitude of roughly 89.4°) and radius 111320 m its
longitude offset is 100 degrees, not the 10 degrees the claimed floored
formula `r / (111320 · max(0.1, cos lat))` yields. -/
theorem c9_counterexample :
    (deg_window_from_radius_ml (1/100) 0 0 111320).2.2.1 = 100
    ∧ (100 : ℚ) ≠ 111320 / (111320 * max (1/10) (1/100)) := by
  constructor
  · norm_num [deg_window_from_radius_ml]
  · norm_num

/-- Claim C9, amended: the snap pipeline's geographic conversion computes
`Δlat = r / 111320` and `Δlon = r / (111320 · cos lat)` with the cosine
floored at 0.1, so its longitude denominator never goes below
`111320 / 10`; the floor only bites below 0.1 and is the identity above
it.  The ML pipeline's conversion uses the unfloored cosine. -/
theorem c9_deg_window (cosLat lat lon radius : ℚ) :
    deg_window_from_radius cosLat radius
      = (radius / 111320, radius / (111320 * max (1/10) cosLat))
    ∧ (1/10 : ℚ) ≤ max (1/10) cosLat
    ∧ (1/10 ≤ cosLat → max (1/10) cosLat = cosLat)
    ∧ (deg_window_from_radius_ml cosLat lat lon radius).2.2.1
        = lon + radius * (1 / (111320 * cosLat))
    ∧ (deg_window_from_radius_ml cosLat lat lon radius).2.1
        = lat - radius * (1 / 111320) :=
  ⟨rfl, le_max_left _ _, fun h => max_eq_right h, rfl, rfl⟩

/-- Witness for C9 (amended) at `cos(lat) = 1/2`. -/
theorem c9_deg_window_witness :
    ((1 : ℚ)/10 ≤ 1/2) ∧ max ((1 : ℚ)/10) (1/2) = 1/2 :=
  ⟨by norm_num, (c9_deg_window (1/2) 0 0 5).2.2.1 (by norm_num)⟩
